import Mathlib

/-!
Shallow embedding of the Print-Notifications repository.

The embedding follows the source files:
- src/src/core/notification_service.py : the Notification record, the
  NotificationService capability and the NotificationManager aggregator
  with its per-provider seen-state.
- src/src/services/github_service.py : the GitHub provider, its raw-item
  translation and the reason-to-type lookup.

Python dictionaries are modelled as association lists with insertion-order
semantics, Python sets of strings as lists of strings with membership
semantics, and a provider fetch call as an explicit outcome value (a list
of items, a returned None, or a raised exception). Timestamps are natural
numbers and the ISO-8601 parser of the standard library is an abstract
parameter of the translation. All string case operations are modelled on
the ASCII range, which covers every string the repository manipulates.
-/

/-- Model of Python str.lower for ASCII strings: each uppercase Latin
letter is replaced by its lowercase form, every other character is kept. -/
def pyLower (s : String) : String :=
  String.mk (s.data.map Char.toLower)

/-- Helper for pyTitle: walks the characters carrying a flag that records
whether the previous character was a letter. A letter that follows a
non-letter is uppercased, a letter that follows a letter is lowercased,
and non-letters are kept and reset the flag. -/
def pyTitleAux : Bool → List Char → List Char
  | _, [] => []
  | prevCased, c :: cs =>
    if c.isAlpha then
      (if prevCased then c.toLower else c.toUpper) :: pyTitleAux true cs
    else
      c :: pyTitleAux false cs

/-- Model of Python str.title for ASCII strings: words are maximal runs of
letters; the first letter of each run is uppercased and the rest are
lowercased; separators (including underscores and digits) are kept. -/
def pyTitle (s : String) : String :=
  String.mk (pyTitleAux false s.data)

/-- Lookup in an association list by key, first match wins; models Python
dict lookup and dict.get. -/
def assocLookup {α : Type} : List (String × α) → String → Option α
  | [], _ => none
  | (k, v) :: rest, key => if k = key then some v else assocLookup rest key

/-- Keyed store: models writing d[key] = v into a Python dict. An existing
key keeps its position and gets the new value; a new key is appended. -/
def dictInsert {α : Type} : List (String × α) → String → α → List (String × α)
  | [], key, v => [(key, v)]
  | (k, w) :: rest, key, v =>
    if k = key then (key, v) :: rest else (k, w) :: dictInsert rest key v

/-- Model of Python set.add on a set of strings represented as a list:
adding a present element is a no-op, otherwise the element is appended. -/
def setAdd (s : List String) (x : String) : List String :=
  if x ∈ s then s else s ++ [x]

/-- Raw GitHub API item as accessed by _convert_github_notification: each
field is optional, mirroring dict.get with its default. -/
structure RawGitHubNotification where
  id : String
  subject_title : Option String
  subject_url : Option String
  repository_full_name : Option String
  reason : Option String
  updated_at : Option String
deriving DecidableEq, Repr

/-- Standardized notification record of
src/src/core/notification_service.py. The raw_data payload is modelled by
the raw GitHub record, the only raw payload the repository produces. -/
structure Notification where
  id : String
  title : String
  source : String
  type : String
  timestamp : Nat
  repository : Option String := none
  url : Option String := none
  reason : Option String := none
  raw_data : Option RawGitHubNotification := none
deriving DecidableEq, Repr

/-- Outcome of one call to a provider get_notifications method: a list of
notifications, a returned None, or a raised exception. -/
inductive FetchOutcome where
  | ok (items : List Notification)
  | errorNone
  | raised
deriving DecidableEq, Repr

/-- A registered provider as the manager sees it for one polling cycle:
its stable name, its readiness flag, and the outcome its fetch produces. -/
structure NotificationService where
  service_name : String
  is_configured : Bool
  get_notifications : FetchOutcome
deriving DecidableEq, Repr

/-- Per-provider seen-state: provider name mapped to the set of ids seen. -/
abbrev SeenMap := List (String × List String)

/-- State of the NotificationManager class: the ordered provider registry
and the seen_notifications dict. -/
structure NotificationManager where
  services : List NotificationService
  seen_notifications : SeenMap
deriving DecidableEq, Repr

/-- The manager constructed by NotificationManager.__init__: no services,
empty seen-state. -/
def NotificationManager.new : NotificationManager :=
  { services := [], seen_notifications := [] }

/-- NotificationManager.add_service: a configured service is appended to
the registry and its seen set is assigned a fresh empty set; an
unconfigured service leaves the state unchanged. -/
def NotificationManager.add_service (m : NotificationManager)
    (service : NotificationService) : NotificationManager :=
  if service.is_configured then
    { services := m.services ++ [service],
      seen_notifications :=
        dictInsert m.seen_notifications service.service_name [] }
  else m

/-- Contribution of one provider to get_all_notifications: the fetched
items on success, nothing when the fetch returned None or raised (the
exception is caught by the except block around the loop body). -/
def getAllAux : List NotificationService → List Notification
  | [] => []
  | svc :: rest =>
    (match svc.get_notifications with
     | FetchOutcome.ok items => items
     | FetchOutcome.errorNone => []
     | FetchOutcome.raised => []) ++ getAllAux rest

/-- NotificationManager.get_all_notifications: concatenates every
successful provider result in registry order; the state is not touched. -/
def NotificationManager.get_all_notifications (m : NotificationManager) :
    List Notification × NotificationManager :=
  (getAllAux m.services, m)

/-- Inner loop of get_new_notifications over one provider item list: an
item whose id is absent from the seen set is emitted and its id added at
that moment; an already-seen id is skipped. Returns the emitted items and
the final seen set. -/
def filterNew : List String → List Notification →
    List Notification × List String
  | s, [] => ([], s)
  | s, n :: rest =>
    if n.id ∈ s then filterNew s rest
    else
      (n :: (filterNew (setAdd s n.id) rest).1,
       (filterNew (setAdd s n.id) rest).2)

/-- One provider step of get_new_notifications. A raised fetch and a None
result contribute nothing; an empty list is falsy so the seen lookup is
skipped; a missing seen entry raises KeyError which the except block
catches, contributing nothing; otherwise the items are filtered against
the provider seen set and the grown set is written back. -/
def getNewStep (seen : SeenMap) (svc : NotificationService) :
    List Notification × SeenMap :=
  match svc.get_notifications with
  | FetchOutcome.raised => ([], seen)
  | FetchOutcome.errorNone => ([], seen)
  | FetchOutcome.ok items =>
    if items = [] then ([], seen)
    else
      match assocLookup seen svc.service_name with
      | none => ([], seen)
      | some s =>
        ((filterNew s items).1,
         dictInsert seen svc.service_name (filterNew s items).2)

/-- Fold of getNewStep over the registry in order, threading the
seen-state and concatenating the per-provider new items. -/
def getNewAux : SeenMap → List NotificationService →
    List Notification × SeenMap
  | seen, [] => ([], seen)
  | seen, svc :: rest =>
    ((getNewStep seen svc).1 ++ (getNewAux (getNewStep seen svc).2 rest).1,
     (getNewAux (getNewStep seen svc).2 rest).2)

/-- NotificationManager.get_new_notifications: traverses the registry,
keeps only the items not yet in the owning provider seen set, and records
each kept id immediately. -/
def NotificationManager.get_new_notifications (m : NotificationManager) :
    List Notification × NotificationManager :=
  ((getNewAux m.seen_notifications m.services).1,
   { m with
     seen_notifications := (getNewAux m.seen_notifications m.services).2 })

/-- One notification pass of mark_notifications_as_seen: every seen-state
entry whose provider name equals the notification source gains the id. -/
def markOne (seen : SeenMap) (n : Notification) : SeenMap :=
  seen.map (fun e => if n.source = e.1 then (e.1, setAdd e.2 n.id) else e)

/-- NotificationManager.mark_notifications_as_seen: for each notification,
adds its id to the seen set of every registered name matching its source. -/
def NotificationManager.mark_notifications_as_seen (m : NotificationManager)
    (notifications : List Notification) : NotificationManager :=
  { m with
    seen_notifications := notifications.foldl markOne m.seen_notifications }

/-- The reason-to-type lookup table of
GitHubNotificationService._get_notification_type. -/
def type_mapping : List (String × String) :=
  [("assign", "Assignment"),
   ("author", "Author"),
   ("comment", "Comment"),
   ("invitation", "Invitation"),
   ("manual", "Manual"),
   ("mention", "Mention"),
   ("review_requested", "Review Request"),
   ("security_alert", "Security Alert"),
   ("state_change", "State Change"),
   ("subscribed", "Subscription"),
   ("team_mention", "Team Mention")]

/-- GitHubNotificationService._get_notification_type: the reason is
lowercased and looked up in the table; an unmapped reason falls back to
the title-cased raw reason string. -/
def getNotificationType (reason : String) : String :=
  match assocLookup type_mapping (pyLower reason) with
  | some t => t
  | none => pyTitle reason

/-- A raw item of the fetched GitHub batch: either a record whose field
accesses succeed, or an item whose translation raises (for example a
non-dict entry), which _convert_github_notification catches. -/
inductive RawItem where
  | valid (v : RawGitHubNotification)
  | malformed
deriving DecidableEq, Repr

/-- GitHubNotificationService._convert_github_notification: builds the
canonical Notification from a raw item, returning none when the
translation raises. The parse parameter models datetime.fromisoformat,
applied after replacing Z with +00:00; an empty or unparsable updated_at
falls back to the current time. -/
def convertGitHubNotification (parse : String → Option Nat) (now : Nat) :
    RawItem → Option Notification
  | RawItem.malformed => none
  | RawItem.valid v =>
    let reason := v.reason.getD "unknown"
    let updated_at := v.updated_at.getD ""
    let timestamp :=
      if updated_at = "" then now
      else
        match parse (updated_at.replace "Z" "+00:00") with
        | some t => t
        | none => now
    some
      { id := v.id,
        title := v.subject_title.getD "No Title",
        source := "GitHub",
        type := getNotificationType reason,
        timestamp := timestamp,
        repository := some (v.repository_full_name.getD "Unknown Repo"),
        url := v.subject_url,
        reason := some reason,
        raw_data := some v }

/-- Configuration state of a GitHubNotificationService instance: the
GITHUB_TOKEN value, absent when the variable is unset. -/
structure GitHubService where
  token : Option String
deriving DecidableEq, Repr

/-- Model of Python str.strip with no argument: leading and trailing
whitespace characters are removed. -/
def pyStrip (s : String) : String :=
  String.mk
    (((s.data.dropWhile Char.isWhitespace).reverse.dropWhile
        Char.isWhitespace).reverse)

/-- GitHubNotificationService.is_configured: the token exists and is not
blank after stripping whitespace. -/
def GitHubService.isConfiguredGh (svc : GitHubService) : Bool :=
  match svc.token with
  | none => false
  | some t => !(pyStrip t == "")

/-- Outcome of the HTTP round trip in
GitHubNotificationService.get_notifications: a JSON array of raw items, or
a network/protocol error raised as a RequestException. -/
inductive GitHubResponse where
  | items (raws : List RawItem)
  | requestError
deriving DecidableEq, Repr

/-- GitHubNotificationService.get_notifications: returns none when
unconfigured or on a request error; otherwise converts each raw item,
keeping the successful conversions. -/
def GitHubService.get_notifications (svc : GitHubService)
    (resp : GitHubResponse) (parse : String → Option Nat) (now : Nat) :
    Option (List Notification) :=
  if svc.isConfiguredGh then
    match resp with
    | GitHubResponse.requestError => none
    | GitHubResponse.items raws =>
      some (raws.filterMap (convertGitHubNotification parse now))
  else none

/-- Membership of an id in the seen set of a given provider name. -/
def memSeen (m : SeenMap) (name x : String) : Prop :=
  match assocLookup m name with
  | some s => x ∈ s
  | none => False

instance memSeenDecidable (m : SeenMap) (name x : String) :
    Decidable (memSeen m name x) := by
  unfold memSeen
  split <;> infer_instance

/-! Helper lemmas about the set and map models. -/

theorem mem_setAdd_self (s : List String) (x : String) : x ∈ setAdd s x := by
  unfold setAdd
  split
  · assumption
  · simp

theorem mem_setAdd_of_mem {s : List String} {y : String} (x : String)
    (h : y ∈ s) : y ∈ setAdd s x := by
  unfold setAdd
  split
  · exact h
  · exact List.mem_append_left _ h

theorem assocLookup_dictInsert_self {α : Type} :
    ∀ (m : List (String × α)) (k : String) (v : α),
      assocLookup (dictInsert m k v) k = some v
  | [], k, v => by simp [dictInsert, assocLookup]
  | (k', w) :: rest, k, v => by
    by_cases h : k' = k
    · simp [dictInsert, h, assocLookup]
    · simp [dictInsert, h, assocLookup, assocLookup_dictInsert_self rest k v]

theorem assocLookup_dictInsert_ne {α : Type} :
    ∀ (m : List (String × α)) (k key : String) (v : α), k ≠ key →
      assocLookup (dictInsert m k v) key = assocLookup m key
  | [], k, key, v, h => by simp [dictInsert, assocLookup, h]
  | (k', w) :: rest, k, key, v, h => by
    by_cases hk : k' = k
    · subst hk
      simp [dictInsert, assocLookup, h]
    · simp [dictInsert, hk, assocLookup,
        assocLookup_dictInsert_ne rest k key v h]

theorem memSeen_of_lookup {m : SeenMap} {name x : String} {s : List String}
    (hl : assocLookup m name = some s) (hx : x ∈ s) : memSeen m name x := by
  unfold memSeen
  rw [hl]
  exact hx

theorem memSeen_elim {m : SeenMap} {name x : String} (h : memSeen m name x) :
    ∃ s, assocLookup m name = some s ∧ x ∈ s := by
  unfold memSeen at h
  cases hl : assocLookup m name with
  | none => rw [hl] at h; exact h.elim
  | some s => rw [hl] at h; exact ⟨s, rfl, h⟩

theorem filterNew_seen_mono :
    ∀ (s : List String) (l : List Notification) (x : String), x ∈ s →
      x ∈ (filterNew s l).2
  | _, [], _, h => h
  | s, n :: rest, x, h => by
    by_cases hm : n.id ∈ s
    · simpa [filterNew, hm] using filterNew_seen_mono s rest x h
    · simpa [filterNew, hm] using
        filterNew_seen_mono (setAdd s n.id) rest x (mem_setAdd_of_mem n.id h)

theorem filterNew_items_mem_seen :
    ∀ (s : List String) (l : List Notification) (n : Notification), n ∈ l →
      n.id ∈ (filterNew s l).2
  | s, m :: rest, n, h => by
    by_cases hm : m.id ∈ s
    · rcases List.mem_cons.mp h with h1 | h2
      · subst h1
        simpa [filterNew, hm] using filterNew_seen_mono s rest n.id hm
      · simpa [filterNew, hm] using filterNew_items_mem_seen s rest n h2
    · rcases List.mem_cons.mp h with h1 | h2
      · subst h1
        simpa [filterNew, hm] using
          filterNew_seen_mono (setAdd s n.id) rest n.id
            (mem_setAdd_self s n.id)
      · simpa [filterNew, hm] using
          filterNew_items_mem_seen (setAdd s m.id) rest n h2

theorem filterNew_out_sublist :
    ∀ (s : List String) (l : List Notification), (filterNew s l).1.Sublist l
  | _, [] => List.Sublist.refl []
  | s, n :: rest => by
    by_cases hm : n.id ∈ s
    · simpa [filterNew, hm] using (filterNew_out_sublist s rest).cons n
    · simpa [filterNew, hm] using
        (filterNew_out_sublist (setAdd s n.id) rest).cons₂ n

theorem filterNew_out_not_seen :
    ∀ (s : List String) (l : List Notification) (n : Notification),
      n ∈ (filterNew s l).1 → n.id ∉ s
  | _, [], n, h => absurd h (List.not_mem_nil n)
  | s, m :: rest, n, h => by
    by_cases hm : m.id ∈ s
    · exact filterNew_out_not_seen s rest n (by simpa [filterNew, hm] using h)
    · have h' : n = m ∨ n ∈ (filterNew (setAdd s m.id) rest).1 := by
        simpa [filterNew, hm] using h
      rcases h' with h1 | h2
      · subst h1; exact hm
      · intro hs
        exact filterNew_out_not_seen (setAdd s m.id) rest n h2
          (mem_setAdd_of_mem m.id hs)

theorem filterNew_pairwise_id :
    ∀ (s : List String) (l : List Notification),
      (filterNew s l).1.Pairwise (fun a b => a.id ≠ b.id)
  | _, [] => List.Pairwise.nil
  | s, n :: rest => by
    by_cases hm : n.id ∈ s
    · simpa [filterNew, hm] using filterNew_pairwise_id s rest
    · have hp := filterNew_pairwise_id (setAdd s n.id) rest
      have hni : ∀ b ∈ (filterNew (setAdd s n.id) rest).1, n.id ≠ b.id := by
        intro b hb heq
        exact filterNew_out_not_seen (setAdd s n.id) rest b hb
          (heq ▸ mem_setAdd_self s n.id)
      simpa [filterNew, hm] using List.Pairwise.cons hni hp

theorem filterNew_out_mem_seen (s : List String) (l : List Notification)
    (n : Notification) (h : n ∈ (filterNew s l).1) :
    n.id ∈ (filterNew s l).2 :=
  filterNew_items_mem_seen s l n ((filterNew_out_sublist s l).subset h)

theorem filterNew_all_seen :
    ∀ (s : List String) (l : List Notification),
      (∀ n ∈ l, n.id ∈ s) → filterNew s l = ([], s)
  | _, [], _ => rfl
  | s, n :: rest, h => by
    have hm : n.id ∈ s := h n (List.mem_cons_self n rest)
    simpa [filterNew, hm] using
      filterNew_all_seen s rest (fun x hx => h x (List.mem_cons_of_mem n hx))

/-! Lemmas about one provider step of get_new_notifications. -/

theorem getNewStep_mono (seen : SeenMap) (svc : NotificationService)
    (name x : String) (h : memSeen seen name x) :
    memSeen (getNewStep seen svc).2 name x := by
  cases hf : svc.get_notifications with
  | raised => simpa [getNewStep, hf] using h
  | errorNone => simpa [getNewStep, hf] using h
  | ok items =>
    by_cases hi : items = []
    · simpa [getNewStep, hf, hi] using h
    · cases hl : assocLookup seen svc.service_name with
      | none => simpa [getNewStep, hf, hi, hl] using h
      | some s =>
        have hstep : (getNewStep seen svc).2
            = dictInsert seen svc.service_name (filterNew s items).2 := by
          simp [getNewStep, hf, hi, hl]
        rw [hstep]
        obtain ⟨t, hlt, hxt⟩ := memSeen_elim h
        by_cases hn : svc.service_name = name
        · subst hn
          rw [hl] at hlt
          injection hlt with hst
          rw [← hst] at hxt
          exact memSeen_of_lookup
            (assocLookup_dictInsert_self seen svc.service_name _)
            (filterNew_seen_mono s items x hxt)
        · exact memSeen_of_lookup
            ((assocLookup_dictInsert_ne seen svc.service_name name _
              hn).trans hlt) hxt

theorem getNewStep_none_preserved (seen : SeenMap)
    (svc : NotificationService) (name : String)
    (h : assocLookup seen name = none) :
    assocLookup (getNewStep seen svc).2 name = none := by
  cases hf : svc.get_notifications with
  | raised => simpa [getNewStep, hf] using h
  | errorNone => simpa [getNewStep, hf] using h
  | ok items =>
    by_cases hi : items = []
    · simpa [getNewStep, hf, hi] using h
    · cases hl : assocLookup seen svc.service_name with
      | none => simpa [getNewStep, hf, hi, hl] using h
      | some s =>
        have hn : svc.service_name ≠ name := by
          intro he
          rw [he, h] at hl
          exact Option.noConfusion hl
        have hstep : (getNewStep seen svc).2
            = dictInsert seen svc.service_name (filterNew s items).2 := by
          simp [getNewStep, hf, hi, hl]
        rw [hstep, assocLookup_dictInsert_ne seen svc.service_name name _ hn]
        exact h

theorem getNewStep_establishes (seen : SeenMap) (svc : NotificationService)
    (items : List Notification) (s : List String)
    (hf : svc.get_notifications = FetchOutcome.ok items)
    (hl : assocLookup seen svc.service_name = some s) :
    ∀ n ∈ items, memSeen (getNewStep seen svc).2 svc.service_name n.id := by
  intro n hn
  by_cases hi : items = []
  · subst hi
    exact absurd hn (List.not_mem_nil n)
  · have hstep : (getNewStep seen svc).2
        = dictInsert seen svc.service_name (filterNew s items).2 := by
      simp [getNewStep, hf, hi, hl]
    rw [hstep]
    exact memSeen_of_lookup
      (assocLookup_dictInsert_self seen svc.service_name _)
      (filterNew_items_mem_seen s items n hn)

theorem getNewStep_empty_out (seen : SeenMap) (svc : NotificationService)
    (items : List Notification) (s : List String)
    (hf : svc.get_notifications = FetchOutcome.ok items)
    (hl : assocLookup seen svc.service_name = some s)
    (hall : ∀ n ∈ items, n.id ∈ s) :
    (getNewStep seen svc).1 = [] := by
  by_cases hi : items = []
  · simp [getNewStep, hf, hi]
  · have hfn := filterNew_all_seen s items hall
    simp [getNewStep, hf, hi, hl, hfn]

theorem getNewStep_out_cases (seen : SeenMap) (svc : NotificationService)
    (n : Notification) (h : n ∈ (getNewStep seen svc).1) :
    ∃ items s, svc.get_notifications = FetchOutcome.ok items ∧
      assocLookup seen svc.service_name = some s ∧
      n ∈ (filterNew s items).1 ∧ n ∈ items ∧
      (getNewStep seen svc).2
        = dictInsert seen svc.service_name (filterNew s items).2 := by
  cases hf : svc.get_notifications with
  | raised => simp [getNewStep, hf] at h
  | errorNone => simp [getNewStep, hf] at h
  | ok items =>
    by_cases hi : items = []
    · simp [getNewStep, hf, hi] at h
    · cases hl : assocLookup seen svc.service_name with
      | none => simp [getNewStep, hf, hi, hl] at h
      | some s =>
        have hout : (getNewStep seen svc).1 = (filterNew s items).1 := by
          simp [getNewStep, hf, hi, hl]
        rw [hout] at h
        exact ⟨items, s, rfl, rfl, h,
          (filterNew_out_sublist s items).subset h,
          by simp [getNewStep, hf, hi, hl]⟩

theorem getNewStep_out_pairwise (seen : SeenMap)
    (svc : NotificationService) :
    (getNewStep seen svc).1.Pairwise (fun a b => a.id ≠ b.id) := by
  cases hf : svc.get_notifications with
  | raised => simp [getNewStep, hf]
  | errorNone => simp [getNewStep, hf]
  | ok items =>
    by_cases hi : items = []
    · simp [getNewStep, hf, hi]
    · cases hl : assocLookup seen svc.service_name with
      | none => simp [getNewStep, hf, hi, hl]
      | some s =>
        have hout : (getNewStep seen svc).1 = (filterNew s items).1 := by
          simp [getNewStep, hf, hi, hl]
        rw [hout]
        exact filterNew_pairwise_id s items

/-! Lemmas about the fold of get_new_notifications over the registry. -/

theorem getNewAux_mono :
    ∀ (seen : SeenMap) (svcs : List NotificationService) (name x : String),
      memSeen seen name x → memSeen (getNewAux seen svcs).2 name x
  | _, [], _, _, h => h
  | seen, svc :: rest, name, x, h =>
    getNewAux_mono (getNewStep seen svc).2 rest name x
      (getNewStep_mono seen svc name x h)

theorem getNewAux_none_preserved :
    ∀ (seen : SeenMap) (svcs : List NotificationService) (name : String),
      assocLookup seen name = none →
      assocLookup (getNewAux seen svcs).2 name = none
  | _, [], _, h => h
  | seen, svc :: rest, name, h =>
    getNewAux_none_preserved (getNewStep seen svc).2 rest name
      (getNewStep_none_preserved seen svc name h)

/-- Coverage invariant: every provider of the list whose fetch succeeds
has all its item ids recorded in its seen entry whenever that entry
exists. A manager state satisfying this invariant yields no new items. -/
def SeenCovers (seen : SeenMap) (svcs : List NotificationService) : Prop :=
  ∀ svc ∈ svcs, ∀ items, svc.get_notifications = FetchOutcome.ok items →
    ∀ s, assocLookup seen svc.service_name = some s → ∀ n ∈ items, n.id ∈ s

theorem seenCovers_step (seen : SeenMap) (svc : NotificationService)
    (l : List NotificationService) (h : SeenCovers seen l) :
    SeenCovers (getNewStep seen svc).2 l := by
  intro s2 hs2 items hf s hl n hn
  cases hl0 : assocLookup seen s2.service_name with
  | none =>
    rw [getNewStep_none_preserved seen svc s2.service_name hl0] at hl
    exact Option.noConfusion hl
  | some s0 =>
    have hx : n.id ∈ s0 := h s2 hs2 items hf s0 hl0 n hn
    have hm : memSeen (getNewStep seen svc).2 s2.service_name n.id :=
      getNewStep_mono seen svc s2.service_name n.id
        (memSeen_of_lookup hl0 hx)
    obtain ⟨t, hlt, hxt⟩ := memSeen_elim hm
    rw [hl] at hlt
    injection hlt with he
    rw [he]
    exact hxt

theorem getNewAux_covers_self :
    ∀ (svcs : List NotificationService) (seen : SeenMap),
      SeenCovers (getNewAux seen svcs).2 svcs
  | [], _ => by
    intro svc h
    exact absurd h (List.not_mem_nil svc)
  | svc :: rest, seen => by
    intro s2 hs2 items hf s hl n hn
    rcases List.mem_cons.mp hs2 with h1 | h2
    · subst h1
      cases hl0 : assocLookup seen s2.service_name with
      | none =>
        have hnone :
            assocLookup (getNewAux (getNewStep seen s2).2 rest).2
              s2.service_name = none :=
          getNewAux_none_preserved (getNewStep seen s2).2 rest
            s2.service_name
            (getNewStep_none_preserved seen s2 s2.service_name hl0)
        have hl' :
            assocLookup (getNewAux (getNewStep seen s2).2 rest).2
              s2.service_name = some s := hl
        rw [hnone] at hl'
        exact Option.noConfusion hl'
      | some s0 =>
        have hm2 :
            memSeen (getNewAux (getNewStep seen s2).2 rest).2
              s2.service_name n.id :=
          getNewAux_mono (getNewStep seen s2).2 rest s2.service_name n.id
            (getNewStep_establishes seen s2 items s0 hf hl0 n hn)
        obtain ⟨t, hlt, hxt⟩ := memSeen_elim hm2
        have hl' :
            assocLookup (getNewAux (getNewStep seen s2).2 rest).2
              s2.service_name = some s := hl
        rw [hl'] at hlt
        injection hlt with he
        rw [he]
        exact hxt
    · exact getNewAux_covers_self rest (getNewStep seen svc).2
        s2 h2 items hf s hl n hn

theorem getNewAux_nil_of_covers :
    ∀ (svcs : List NotificationService) (seen : SeenMap),
      SeenCovers seen svcs → (getNewAux seen svcs).1 = []
  | [], _, _ => rfl
  | svc :: rest, seen, h => by
    have hhead : (getNewStep seen svc).1 = [] := by
      cases hf : svc.get_notifications with
      | raised => simp [getNewStep, hf]
      | errorNone => simp [getNewStep, hf]
      | ok items =>
        cases hl : assocLookup seen svc.service_name with
        | none =>
          by_cases hi : items = [] <;> simp [getNewStep, hf, hi, hl]
        | some s =>
          exact getNewStep_empty_out seen svc items s hf hl
            (h svc (List.mem_cons_self svc rest) items hf s hl)
    have htail : (getNewAux (getNewStep seen svc).2 rest).1 = [] :=
      getNewAux_nil_of_covers rest (getNewStep seen svc).2
        (seenCovers_step seen svc rest
          (fun s2 hs2 => h s2 (List.mem_cons_of_mem svc hs2)))
    show (getNewStep seen svc).1
        ++ (getNewAux (getNewStep seen svc).2 rest).1 = []
    rw [hhead, htail]
    rfl

theorem getNew_twice_nil (m : NotificationManager) :
    ((NotificationManager.get_new_notifications
      (NotificationManager.get_new_notifications m).2)).1 = [] :=
  getNewAux_nil_of_covers m.services
    (getNewAux m.seen_notifications m.services).2
    (getNewAux_covers_self m.services m.seen_notifications)

/-! Splitting and skipping lemmas for fault isolation. -/

theorem getAllAux_append :
    ∀ (l1 l2 : List NotificationService),
      getAllAux (l1 ++ l2) = getAllAux l1 ++ getAllAux l2
  | [], _ => rfl
  | svc :: rest, l2 => by
    have ih := getAllAux_append rest l2
    simp only [List.cons_append, getAllAux, List.append_assoc]
    exact congrArg (HAppend.hAppend _) ih

theorem getNewStep_raised (bad : NotificationService)
    (hb : bad.get_notifications = FetchOutcome.raised) (seen : SeenMap) :
    getNewStep seen bad = ([], seen) := by
  simp [getNewStep, hb]

theorem getNewStep_errorNone (bad : NotificationService)
    (hb : bad.get_notifications = FetchOutcome.errorNone) (seen : SeenMap) :
    getNewStep seen bad = ([], seen) := by
  simp [getNewStep, hb]

theorem getNewAux_skip (bad : NotificationService)
    (hstep : ∀ seen, getNewStep seen bad = ([], seen)) :
    ∀ (pre post : List NotificationService) (seen : SeenMap),
      getNewAux seen (pre ++ bad :: post) = getNewAux seen (pre ++ post)
  | [], post, seen => by
    show ((getNewStep seen bad).1
        ++ (getNewAux (getNewStep seen bad).2 post).1,
      (getNewAux (getNewStep seen bad).2 post).2) = getNewAux seen post
    rw [hstep seen]
    rfl
  | svc :: rest, post, seen => by
    show ((getNewStep seen svc).1
        ++ (getNewAux (getNewStep seen svc).2 (rest ++ bad :: post)).1,
      (getNewAux (getNewStep seen svc).2 (rest ++ bad :: post)).2)
      = ((getNewStep seen svc).1
        ++ (getNewAux (getNewStep seen svc).2 (rest ++ post)).1,
      (getNewAux (getNewStep seen svc).2 (rest ++ post)).2)
    rw [getNewAux_skip bad hstep rest post (getNewStep seen svc).2]

theorem getAllAux_skip (bad : NotificationService)
    (hc : getAllAux [bad] = []) (pre post : List NotificationService) :
    getAllAux (pre ++ bad :: post) = getAllAux (pre ++ post) := by
  have h1 : pre ++ bad :: post = pre ++ ([bad] ++ post) := rfl
  rw [h1, getAllAux_append pre ([bad] ++ post), getAllAux_append [bad] post,
    hc, getAllAux_append pre post]
  rfl

/-! Lemmas about mark_notifications_as_seen. -/

theorem assocLookup_markOne :
    ∀ (seen : SeenMap) (n : Notification) (name : String),
      assocLookup (markOne seen n) name =
        Option.map (fun s => if n.source = name then setAdd s n.id else s)
          (assocLookup seen name)
  | [], _, _ => rfl
  | (k, v) :: rest, n, name => by
    have hmap : markOne ((k, v) :: rest) n
        = (if n.source = k then (k, setAdd v n.id) else (k, v))
          :: markOne rest n := by
      simp [markOne]
    rw [hmap]
    by_cases hs : n.source = k
    · rw [if_pos hs]
      by_cases hk : k = name
      · subst hk
        simp [assocLookup, hs]
      · simp [assocLookup, hk, assocLookup_markOne rest n name]
    · rw [if_neg hs]
      by_cases hk : k = name
      · subst hk
        simp [assocLookup, hs]
      · simp [assocLookup, hk, assocLookup_markOne rest n name]

theorem markOne_mono (seen : SeenMap) (n : Notification) (name x : String)
    (h : memSeen seen name x) : memSeen (markOne seen n) name x := by
  obtain ⟨s, hl, hx⟩ := memSeen_elim h
  by_cases hs : n.source = name
  · exact memSeen_of_lookup
      (by rw [assocLookup_markOne, hl]; simp [hs])
      (mem_setAdd_of_mem n.id hx)
  · exact memSeen_of_lookup
      (by rw [assocLookup_markOne, hl]; simp [hs]) hx

theorem markFold_mono :
    ∀ (ns : List Notification) (seen : SeenMap) (name x : String),
      memSeen seen name x → memSeen (ns.foldl markOne seen) name x
  | [], _, _, _, h => h
  | n :: rest, seen, name, x, h =>
    markFold_mono rest (markOne seen n) name x (markOne_mono seen n name x h)

theorem markOne_no_match :
    ∀ (seen : SeenMap) (n : Notification),
      (∀ p ∈ seen, p.1 ≠ n.source) → markOne seen n = seen
  | [], _, _ => rfl
  | (k, v) :: rest, n, h => by
    have hs : ¬ n.source = k := fun he =>
      h (k, v) (List.mem_cons_self _ _) he.symm
    have htail : markOne rest n = rest :=
      markOne_no_match rest n (fun p hp => h p (List.mem_cons_of_mem _ hp))
    calc markOne ((k, v) :: rest) n
        = (k, v) :: markOne rest n := by simp [markOne, hs]
      _ = (k, v) :: rest := by rw [htail]

/-! Duplicate-freedom machinery for the aggregated new-notification list. -/

theorem getNewStep_out_not_seen_src (seen : SeenMap)
    (svc : NotificationService) (n : Notification)
    (h : n ∈ (getNewStep seen svc).1)
    (hsrc : n.source = svc.service_name) :
    ¬ memSeen seen n.source n.id := by
  obtain ⟨items, s, _, hl, hfn, _, _⟩ := getNewStep_out_cases seen svc n h
  intro hm
  obtain ⟨t, hlt, hxt⟩ := memSeen_elim hm
  rw [hsrc, hl] at hlt
  injection hlt with he
  have hin : n.id ∈ s := by rw [he]; exact hxt
  exact filterNew_out_not_seen s items n hfn hin

theorem getNewStep_out_mem_after (seen : SeenMap)
    (svc : NotificationService) (n : Notification)
    (h : n ∈ (getNewStep seen svc).1)
    (hsrc : n.source = svc.service_name) :
    memSeen (getNewStep seen svc).2 n.source n.id := by
  obtain ⟨items, s, _, _, hfn, _, hstep⟩ := getNewStep_out_cases seen svc n h
  rw [hstep, hsrc]
  exact memSeen_of_lookup (assocLookup_dictInsert_self _ _ _)
    (filterNew_out_mem_seen s items n hfn)

theorem getNewAux_out_props :
    ∀ (svcs : List NotificationService) (seen : SeenMap),
      (∀ svc ∈ svcs, ∀ items,
          svc.get_notifications = FetchOutcome.ok items →
          ∀ n ∈ items, n.source = svc.service_name) →
      (getNewAux seen svcs).1.Pairwise
          (fun a b => ¬ (a.source = b.source ∧ a.id = b.id)) ∧
      (∀ n ∈ (getNewAux seen svcs).1, ¬ memSeen seen n.source n.id) ∧
      (∀ n ∈ (getNewAux seen svcs).1,
        memSeen (getNewAux seen svcs).2 n.source n.id)
  | [], _, _ =>
    ⟨List.Pairwise.nil, fun n h => absurd h (List.not_mem_nil n),
      fun n h => absurd h (List.not_mem_nil n)⟩
  | svc :: rest, seen, hsm => by
    obtain ⟨ihp, ihnot, ihmem⟩ :=
      getNewAux_out_props rest (getNewStep seen svc).2
        (fun s2 hs2 => hsm s2 (List.mem_cons_of_mem svc hs2))
    have hsrc1 : ∀ n ∈ (getNewStep seen svc).1,
        n.source = svc.service_name := by
      intro n hn
      obtain ⟨items, _, hf, _, _, hmem, _⟩ :=
        getNewStep_out_cases seen svc n hn
      exact hsm svc (List.mem_cons_self svc rest) items hf n hmem
    have hout : (getNewAux seen (svc :: rest)).1
        = (getNewStep seen svc).1
          ++ (getNewAux (getNewStep seen svc).2 rest).1 := rfl
    refine ⟨?_, ?_, ?_⟩
    · rw [hout, List.pairwise_append]
      refine ⟨?_, ihp, ?_⟩
      · exact (getNewStep_out_pairwise seen svc).imp
          (fun hab hc => hab hc.2)
      · intro a ha b hb hc
        have ha' : memSeen (getNewStep seen svc).2 a.source a.id :=
          getNewStep_out_mem_after seen svc a ha (hsrc1 a ha)
        have hb' : ¬ memSeen (getNewStep seen svc).2 b.source b.id :=
          ihnot b hb
        rw [hc.1, hc.2] at ha'
        exact hb' ha'
    · intro n hn
      rcases List.mem_append.mp hn with h1 | h2
      · exact getNewStep_out_not_seen_src seen svc n h1 (hsrc1 n h1)
      · intro hm
        exact ihnot n h2 (getNewStep_mono seen svc n.source n.id hm)
    · intro n hn
      rcases List.mem_append.mp hn with h1 | h2
      · exact getNewAux_mono (getNewStep seen svc).2 rest n.source n.id
          (getNewStep_out_mem_after seen svc n h1 (hsrc1 n h1))
      · exact ihmem n h2

/-! Claim theorems. -/

/-- C1: for a registered provider whose fetched item ids are already all
in the seen set of that provider (however they got there), the
get_new_notifications step over those same items emits nothing for that
provider; in particular an immediate second get_new_notifications call
with unchanged upstream items returns no items at all. -/
theorem c1_dedup_idempotent :
    (∀ (seen : SeenMap) (svc : NotificationService)
        (items : List Notification) (s : List String),
        svc.get_notifications = FetchOutcome.ok items →
        assocLookup seen svc.service_name = some s →
        (∀ n ∈ items, n.id ∈ s) →
        (getNewStep seen svc).1 = []) ∧
    (∀ m : NotificationManager,
      (NotificationManager.get_new_notifications
        (NotificationManager.get_new_notifications m).2).1 = []) :=
  ⟨fun seen svc items s hf hl hall =>
      getNewStep_empty_out seen svc items s hf hl hall,
    getNew_twice_nil⟩

/-- Witness for C1 at a concrete provider whose only item id is already
in its seen set. -/
theorem c1_dedup_idempotent_witness :
    (getNewStep [("GitHub", ["1"])]
      { service_name := "GitHub", is_configured := true,
        get_notifications := FetchOutcome.ok
          [{ id := "1", title := "t", source := "GitHub", type := "T",
             timestamp := 0 }] }).1 = [] :=
  c1_dedup_idempotent.1 [("GitHub", ["1"])]
    { service_name := "GitHub", is_configured := true,
      get_notifications := FetchOutcome.ok
        [{ id := "1", title := "t", source := "GitHub", type := "T",
           timestamp := 0 }] }
    [{ id := "1", title := "t", source := "GitHub", type := "T",
       timestamp := 0 }]
    ["1"] rfl (by decide) (by decide)

/-- C3: a provider whose fetch raises contributes zero items to both
aggregate operations, the fault is not propagated (both operations are
total functions of the state), and the result and seen-state updates are
exactly those of the registry without the faulty provider. -/
theorem c3_provider_fault_isolated
    (pre post : List NotificationService) (bad : NotificationService)
    (seen : SeenMap)
    (hb : bad.get_notifications = FetchOutcome.raised) :
    ((NotificationManager.mk (pre ++ bad :: post) seen
      ).get_all_notifications).1
      = ((NotificationManager.mk (pre ++ post) seen
      ).get_all_notifications).1 ∧
    ((NotificationManager.mk (pre ++ bad :: post) seen
      ).get_new_notifications).1
      = ((NotificationManager.mk (pre ++ post) seen
      ).get_new_notifications).1 ∧
    (((NotificationManager.mk (pre ++ bad :: post) seen
      ).get_new_notifications).2).seen_notifications
      = (((NotificationManager.mk (pre ++ post) seen
      ).get_new_notifications).2).seen_notifications := by
  have h2 := getNewAux_skip bad (getNewStep_raised bad hb) pre post seen
  refine ⟨getAllAux_skip bad (by simp [getAllAux, hb]) pre post, ?_, ?_⟩
  · show (getNewAux seen (pre ++ bad :: post)).1
      = (getNewAux seen (pre ++ post)).1
    rw [h2]
  · show (getNewAux seen (pre ++ bad :: post)).2
      = (getNewAux seen (pre ++ post)).2
    rw [h2]

/-- Witness for C3 with one healthy provider on each side of the faulty
one. -/
theorem c3_provider_fault_isolated_witness :
    ((NotificationManager.mk
      ([{ service_name := "A", is_configured := true,
          get_notifications := FetchOutcome.ok
            [{ id := "1", title := "a", source := "A", type := "T",
               timestamp := 0 }] }]
        ++ { service_name := "F", is_configured := true,
             get_notifications := FetchOutcome.raised }
        :: [{ service_name := "B", is_configured := true,
              get_notifications := FetchOutcome.ok
                [{ id := "2", title := "b", source := "B", type := "T",
                   timestamp := 0 }] }])
      [("A", []), ("F", []), ("B", [])]).get_all_notifications).1
      = ((NotificationManager.mk
        ([{ service_name := "A", is_configured := true,
            get_notifications := FetchOutcome.ok
              [{ id := "1", title := "a", source := "A", type := "T",
                 timestamp := 0 }] }]
          ++ [{ service_name := "B", is_configured := true,
                get_notifications := FetchOutcome.ok
                  [{ id := "2", title := "b", source := "B", type := "T",
                     timestamp := 0 }] }])
        [("A", []), ("F", []), ("B", [])]).get_all_notifications).1 :=
  (c3_provider_fault_isolated
    [{ service_name := "A", is_configured := true,
       get_notifications := FetchOutcome.ok
         [{ id := "1", title := "a", source := "A", type := "T",
            timestamp := 0 }] }]
    [{ service_name := "B", is_configured := true,
       get_notifications := FetchOutcome.ok
         [{ id := "2", title := "b", source := "B", type := "T",
            timestamp := 0 }] }]
    { service_name := "F", is_configured := true,
      get_notifications := FetchOutcome.raised }
    [("A", []), ("F", []), ("B", [])] rfl).1

/-- C6: get_all_notifications leaves the seen_notifications mapping
unchanged: the state it returns carries the identical mapping. -/
theorem c6_get_all_preserves_seen (m : NotificationManager) :
    ((m.get_all_notifications).2).seen_notifications
      = m.seen_notifications := rfl

/-- C10: mark_notifications_as_seen with a notification whose source
matches no registered seen-state entry raises nothing (it is total) and
returns the state unchanged. -/
theorem c10_unmatched_source_ignored (m : NotificationManager)
    (n : Notification)
    (h : ∀ p ∈ m.seen_notifications, p.1 ≠ n.source) :
    m.mark_notifications_as_seen [n] = m := by
  unfold NotificationManager.mark_notifications_as_seen
  rw [show ([n].foldl markOne m.seen_notifications)
      = markOne m.seen_notifications n from rfl,
    markOne_no_match m.seen_notifications n h]

/-- Witness for C10: marking a notification from an unregistered source
leaves a concrete one-provider state unchanged. -/
theorem c10_unmatched_source_ignored_witness :
    (NotificationManager.mk [] [("GitHub", ["7"])]
      ).mark_notifications_as_seen
      [{ id := "1", title := "t", source := "Slack", type := "T",
         timestamp := 0 }]
      = NotificationManager.mk [] [("GitHub", ["7"])] :=
  c10_unmatched_source_ignored (NotificationManager.mk [] [("GitHub", ["7"])])
    { id := "1", title := "t", source := "Slack", type := "T",
      timestamp := 0 }
    (by decide)

/-- C8: the GitHub provider returns None on any request error, and a
registered provider whose fetch returns None contributes zero items to
both aggregate operations, nothing is raised, its seen entry is
untouched, and the contributions of the other providers are unchanged. -/
theorem c8_none_result_contributes_nothing
    (pre post : List NotificationService) (bad : NotificationService)
    (seen : SeenMap)
    (hb : bad.get_notifications = FetchOutcome.errorNone)
    (gh : GitHubService) (parse : String → Option Nat) (now : Nat) :
    gh.get_notifications GitHubResponse.requestError parse now = none ∧
    ((NotificationManager.mk (pre ++ bad :: post) seen
      ).get_all_notifications).1
      = ((NotificationManager.mk (pre ++ post) seen
      ).get_all_notifications).1 ∧
    ((NotificationManager.mk (pre ++ bad :: post) seen
      ).get_new_notifications).1
      = ((NotificationManager.mk (pre ++ post) seen
      ).get_new_notifications).1 ∧
    (((NotificationManager.mk (pre ++ bad :: post) seen
      ).get_new_notifications).2).seen_notifications
      = (((NotificationManager.mk (pre ++ post) seen
      ).get_new_notifications).2).seen_notifications := by
  have h2 := getNewAux_skip bad (getNewStep_errorNone bad hb) pre post seen
  refine ⟨?_, getAllAux_skip bad (by simp [getAllAux, hb]) pre post,
    ?_, ?_⟩
  · by_cases hcfg : gh.isConfiguredGh <;>
      simp [GitHubService.get_notifications, hcfg]
  · show (getNewAux seen (pre ++ bad :: post)).1
      = (getNewAux seen (pre ++ post)).1
    rw [h2]
  · show (getNewAux seen (pre ++ bad :: post)).2
      = (getNewAux seen (pre ++ post)).2
    rw [h2]

/-- Witness for C8 with a provider returning None between two healthy
providers. -/
theorem c8_none_result_contributes_nothing_witness :
    GitHubService.get_notifications { token := none }
      GitHubResponse.requestError (fun _ => none) 0 = none ∧
    ((NotificationManager.mk
      ([{ service_name := "A", is_configured := true,
          get_notifications := FetchOutcome.ok
            [{ id := "1", title := "a", source := "A", type := "T",
               timestamp := 0 }] }]
        ++ { service_name := "G", is_configured := true,
             get_notifications := FetchOutcome.errorNone }
        :: [{ service_name := "B", is_configured := true,
              get_notifications := FetchOutcome.ok
                [{ id := "2", title := "b", source := "B", type := "T",
                   timestamp := 0 }] }])
      [("A", []), ("G", []), ("B", [])]).get_all_notifications).1
      = ((NotificationManager.mk
        ([{ service_name := "A", is_configured := true,
            get_notifications := FetchOutcome.ok
              [{ id := "1", title := "a", source := "A", type := "T",
                 timestamp := 0 }] }]
          ++ [{ service_name := "B", is_configured := true,
                get_notifications := FetchOutcome.ok
                  [{ id := "2", title := "b", source := "B", type := "T",
                     timestamp := 0 }] }])
        [("A", []), ("G", []), ("B", [])]).get_all_notifications).1 :=
  ⟨(c8_none_result_contributes_nothing
      [{ service_name := "A", is_configured := true,
         get_notifications := FetchOutcome.ok
           [{ id := "1", title := "a", source := "A", type := "T",
              timestamp := 0 }] }]
      [{ service_name := "B", is_configured := true,
         get_notifications := FetchOutcome.ok
           [{ id := "2", title := "b", source := "B", type := "T",
              timestamp := 0 }] }]
      { service_name := "G", is_configured := true,
        get_notifications := FetchOutcome.errorNone }
      [("A", []), ("G", []), ("B", [])] rfl
      { token := none } (fun _ => none) 0).1,
    (c8_none_result_contributes_nothing
      [{ service_name := "A", is_configured := true,
         get_notifications := FetchOutcome.ok
           [{ id := "1", title := "a", source := "A", type := "T",
              timestamp := 0 }] }]
      [{ service_name := "B", is_configured := true,
         get_notifications := FetchOutcome.ok
           [{ id := "2", title := "b", source := "B", type := "T",
              timestamp := 0 }] }]
      { service_name := "G", is_configured := true,
        get_notifications := FetchOutcome.errorNone }
      [("A", []), ("G", []), ("B", [])] rfl
      { token := none } (fun _ => none) 0).2.1⟩

/-- C2: two registered providers with distinct names each returning a
notification with a colliding id string: both notifications appear in
get_all_notifications and in the first get_new_notifications result, and
each id is recorded only in the seen set of its own provider. -/
theorem c2_colliding_ids_independent
    (a b : NotificationService) (na nb : Notification)
    (hca : a.is_configured = true) (hcb : b.is_configured = true)
    (hne : a.service_name ≠ b.service_name)
    (hfa : a.get_notifications = FetchOutcome.ok [na])
    (hfb : b.get_notifications = FetchOutcome.ok [nb])
    (_hid : na.id = nb.id) :
    (((NotificationManager.new.add_service a).add_service
        b).get_all_notifications).1 = [na, nb] ∧
    (((NotificationManager.new.add_service a).add_service
        b).get_new_notifications).1 = [na, nb] ∧
    assocLookup ((((NotificationManager.new.add_service a).add_service
        b).get_new_notifications).2).seen_notifications a.service_name
      = some [na.id] ∧
    assocLookup ((((NotificationManager.new.add_service a).add_service
        b).get_new_notifications).2).seen_notifications b.service_name
      = some [nb.id] := by
  have hstate : (NotificationManager.new.add_service a).add_service b
      = NotificationManager.mk [a, b]
        [(a.service_name, []), (b.service_name, [])] := by
    simp [NotificationManager.new, NotificationManager.add_service, hca,
      hcb, dictInsert, hne]
  rw [hstate]
  refine ⟨?_, ?_, ?_, ?_⟩ <;>
    simp [NotificationManager.get_all_notifications,
      NotificationManager.get_new_notifications, getAllAux, getNewAux,
      getNewStep, filterNew, setAdd, dictInsert, assocLookup, hfa, hfb,
      hne, Ne.symm hne]

/-- Witness for C2: providers X and Y both emit id 1 and neither
suppresses the other. -/
theorem c2_colliding_ids_independent_witness :
    (((NotificationManager.new.add_service
      { service_name := "X", is_configured := true,
        get_notifications := FetchOutcome.ok
          [{ id := "1", title := "x", source := "X", type := "T",
             timestamp := 0 }] }).add_service
      { service_name := "Y", is_configured := true,
        get_notifications := FetchOutcome.ok
          [{ id := "1", title := "y", source := "Y", type := "T",
             timestamp := 0 }] }).get_all_notifications).1
      = [{ id := "1", title := "x", source := "X", type := "T",
           timestamp := 0 },
         { id := "1", title := "y", source := "Y", type := "T",
           timestamp := 0 }] :=
  (c2_colliding_ids_independent
    { service_name := "X", is_configured := true,
      get_notifications := FetchOutcome.ok
        [{ id := "1", title := "x", source := "X", type := "T",
           timestamp := 0 }] }
    { service_name := "Y", is_configured := true,
      get_notifications := FetchOutcome.ok
        [{ id := "1", title := "y", source := "Y", type := "T",
           timestamp := 0 }] }
    { id := "1", title := "x", source := "X", type := "T",
      timestamp := 0 }
    { id := "1", title := "y", source := "Y", type := "T",
      timestamp := 0 }
    rfl rfl (by decide) rfl rfl rfl).1

/-- C4 counterexample: the reason custom_reason is unmapped, and the code
derives the type Custom_Reason (Python title casing keeps the
underscore), not Custom Reason as the claim states. -/
theorem c4_title_case_counterexample :
    getNotificationType "custom_reason" ≠ "Custom Reason" ∧
    getNotificationType "custom_reason" = "Custom_Reason" := by
  refine ⟨?_, ?_⟩ <;> decide

/-- C4 amended: every reason whose lowercased form is not a key of the
reason-to-type table maps to the Python title-cased rendering of the raw
reason string, which uppercases the first letter of each letter run and
keeps separators such as the underscore in place; in particular the
reason custom_reason maps to Custom_Reason. -/
theorem c4_unmapped_reason_title_cased :
    (∀ reason : String,
      assocLookup type_mapping (pyLower reason) = none →
      getNotificationType reason = pyTitle reason) ∧
    getNotificationType "custom_reason" = "Custom_Reason" := by
  refine ⟨?_, by decide⟩
  intro reason h
  unfold getNotificationType
  rw [h]

/-- Witness for C4 at the concrete unmapped reason custom_reason. -/
theorem c4_unmapped_reason_title_cased_witness :
    getNotificationType "custom_reason" = pyTitle "custom_reason" :=
  c4_unmapped_reason_title_cased.1 "custom_reason" (by decide)

/-- C5: a raw item whose translation fails is dropped alone: the fetch of
a configured GitHub service over a batch containing it still returns the
successful conversions of all the other items. -/
theorem c5_item_translation_fault_isolated
    (svc : GitHubService) (parse : String → Option Nat) (now : Nat)
    (pre post : List RawItem) (bad : RawItem)
    (hbad : convertGitHubNotification parse now bad = none)
    (hc : svc.isConfiguredGh = true) :
    svc.get_notifications (GitHubResponse.items (pre ++ bad :: post))
        parse now
      = some ((pre ++ post).filterMap
          (convertGitHubNotification parse now)) := by
  have hfm : (pre ++ bad :: post).filterMap
      (convertGitHubNotification parse now)
      = (pre ++ post).filterMap (convertGitHubNotification parse now) := by
    rw [List.filterMap_append, List.filterMap_append,
      List.filterMap_cons_none hbad]
  simp [GitHubService.get_notifications, hc, hfm]

/-- Witness for C5: a malformed item between two valid ones is dropped
while both valid items are converted. -/
theorem c5_item_translation_fault_isolated_witness :
    GitHubService.get_notifications { token := some "tok" }
      (GitHubResponse.items
        ([RawItem.valid
            { id := "1", subject_title := some "first",
              subject_url := none, repository_full_name := none,
              reason := some "mention", updated_at := none }]
          ++ RawItem.malformed
          :: [RawItem.valid
               { id := "2", subject_title := some "second",
                 subject_url := none, repository_full_name := none,
                 reason := some "comment", updated_at := none }]))
      (fun _ => none) 0
      = some (([RawItem.valid
          { id := "1", subject_title := some "first",
            subject_url := none, repository_full_name := none,
            reason := some "mention", updated_at := none },
        RawItem.valid
          { id := "2", subject_title := some "second",
            subject_url := none, repository_full_name := none,
            reason := some "comment", updated_at := none }]).filterMap
          (convertGitHubNotification (fun _ => none) 0)) :=
  c5_item_translation_fault_isolated { token := some "tok" }
    (fun _ => none) 0
    [RawItem.valid
      { id := "1", subject_title := some "first", subject_url := none,
        repository_full_name := none, reason := some "mention",
        updated_at := none }]
    [RawItem.valid
      { id := "2", subject_title := some "second", subject_url := none,
        repository_full_name := none, reason := some "comment",
        updated_at := none }]
    RawItem.malformed rfl (by decide)

/-- C7 counterexample: add_service with a configured service whose name
is already registered resets that seen set to empty, removing the
recorded id 1, so the claim that no operation ever removes an id fails. -/
theorem c7_add_service_resets_counterexample :
    memSeen (NotificationManager.mk [] [("X", ["1"])]).seen_notifications
      "X" "1" ∧
    ¬ memSeen ((NotificationManager.mk [] [("X", ["1"])]).add_service
      { service_name := "X", is_configured := true,
        get_notifications := FetchOutcome.raised }).seen_notifications
      "X" "1" := by
  refine ⟨?_, ?_⟩ <;> decide

/-- C7 amended: get_all_notifications, get_new_notifications and
mark_notifications_as_seen never remove an id from any seen set, and
add_service never removes one provided the service name is not already a
seen-state key (an unconfigured service changes nothing at all);
re-registering an existing configured name resets that set to empty. -/
theorem c7_seen_monotone_amended :
    (∀ (m : NotificationManager) (name x : String),
      memSeen m.seen_notifications name x →
      memSeen ((m.get_all_notifications).2).seen_notifications name x) ∧
    (∀ (m : NotificationManager) (name x : String),
      memSeen m.seen_notifications name x →
      memSeen ((m.get_new_notifications).2).seen_notifications name x) ∧
    (∀ (m : NotificationManager) (ns : List Notification)
        (name x : String),
      memSeen m.seen_notifications name x →
      memSeen (m.mark_notifications_as_seen ns).seen_notifications
        name x) ∧
    (∀ (m : NotificationManager) (svc : NotificationService)
        (name x : String),
      assocLookup m.seen_notifications svc.service_name = none →
      memSeen m.seen_notifications name x →
      memSeen (m.add_service svc).seen_notifications name x) ∧
    (∀ (m : NotificationManager) (svc : NotificationService),
      svc.is_configured = false → m.add_service svc = m) := by
  refine ⟨?_, ?_, ?_, ?_, ?_⟩
  · intro m name x h
    exact h
  · intro m name x h
    exact getNewAux_mono m.seen_notifications m.services name x h
  · intro m ns name x h
    exact markFold_mono ns m.seen_notifications name x h
  · intro m svc name x hnone h
    unfold NotificationManager.add_service
    by_cases hc : svc.is_configured
    · rw [if_pos hc]
      obtain ⟨s, hl, hx⟩ := memSeen_elim h
      have hne : svc.service_name ≠ name := by
        intro he
        rw [← he, hnone] at hl
        exact Option.noConfusion hl
      exact memSeen_of_lookup
        ((assocLookup_dictInsert_ne m.seen_notifications svc.service_name
          name [] hne).trans hl) hx
    · rw [if_neg hc]
      exact h
  · intro m svc hc
    simp [NotificationManager.add_service, hc]

/-- Witness for C7: registering a fresh configured name keeps the id
recorded for the existing provider. -/
theorem c7_seen_monotone_amended_witness :
    memSeen ((NotificationManager.mk [] [("X", ["1"])]).add_service
      { service_name := "Y", is_configured := true,
        get_notifications := FetchOutcome.raised }).seen_notifications
      "X" "1" :=
  c7_seen_monotone_amended.2.2.2.1
    (NotificationManager.mk [] [("X", ["1"])])
    { service_name := "Y", is_configured := true,
      get_notifications := FetchOutcome.raised }
    "X" "1" (by decide) (by decide)

/-- C9 counterexample: two providers with distinct registered names can
both return a notification carrying the same source and id, and the
aggregated get_new_notifications result then contains that pair twice,
so the claim that the result never contains two notifications with the
same source and id fails. -/
theorem c9_cross_provider_duplicate_counterexample :
    ¬ (((NotificationManager.mk
      [{ service_name := "A", is_configured := true,
         get_notifications := FetchOutcome.ok
           [{ id := "1", title := "t", source := "Z", type := "T",
              timestamp := 0 }] },
       { service_name := "B", is_configured := true,
         get_notifications := FetchOutcome.ok
           [{ id := "1", title := "t", source := "Z", type := "T",
              timestamp := 0 }] }]
      [("A", []), ("B", [])]).get_new_notifications).1).Pairwise
      (fun a b => ¬ (a.source = b.source ∧ a.id = b.id)) := by
  decide

/-- C9 amended: one provider step emits pairwise distinct ids (keeping
only the first occurrence of a duplicated id, the output being a sublist
of the fetched batch), and when every provider labels its items with its
own service name the aggregated get_new_notifications result contains no
two notifications sharing both source and id. -/
theorem c9_first_occurrence_amended :
    (∀ (seen : SeenMap) (svc : NotificationService),
      (getNewStep seen svc).1.Pairwise (fun a b => a.id ≠ b.id)) ∧
    (∀ (seen : SeenMap) (svc : NotificationService)
        (items : List Notification),
      svc.get_notifications = FetchOutcome.ok items →
      (getNewStep seen svc).1.Sublist items) ∧
    (∀ m : NotificationManager,
      (∀ svc ∈ m.services, ∀ items,
          svc.get_notifications = FetchOutcome.ok items →
          ∀ n ∈ items, n.source = svc.service_name) →
      ((m.get_new_notifications).1).Pairwise
        (fun a b => ¬ (a.source = b.source ∧ a.id = b.id))) := by
  refine ⟨getNewStep_out_pairwise, ?_, ?_⟩
  · intro seen svc items hf
    by_cases hi : items = []
    · subst hi
      simp [getNewStep, hf]
    · cases hl : assocLookup seen svc.service_name with
      | none => simp [getNewStep, hf, hi, hl]
      | some s =>
        have hout : (getNewStep seen svc).1 = (filterNew s items).1 := by
          simp [getNewStep, hf, hi, hl]
        rw [hout]
        exact filterNew_out_sublist s items
  · intro m hsm
    exact (getNewAux_out_props m.services m.seen_notifications hsm).1

/-- Witness for C9: a provider returning the same id twice, labelled
with its own name, yields a duplicate-free aggregated result. -/
theorem c9_first_occurrence_amended_witness :
    ((((NotificationManager.mk
      [{ service_name := "A", is_configured := true,
         get_notifications := FetchOutcome.ok
           [{ id := "1", title := "t", source := "A", type := "T",
              timestamp := 0 },
            { id := "1", title := "u", source := "A", type := "T",
              timestamp := 0 }] }]
      [("A", [])]).get_new_notifications).1)).Pairwise
      (fun a b => ¬ (a.source = b.source ∧ a.id = b.id)) :=
  c9_first_occurrence_amended.2.2
    (NotificationManager.mk
      [{ service_name := "A", is_configured := true,
         get_notifications := FetchOutcome.ok
           [{ id := "1", title := "t", source := "A", type := "T",
              timestamp := 0 },
            { id := "1", title := "u", source := "A", type := "T",
              timestamp := 0 }] }]
      [("A", [])])
    (by
      intro svc hsvc items hf n hn
      rcases List.mem_singleton.mp hsvc with rfl
      have hf' : FetchOutcome.ok
          [{ id := "1", title := "t", source := "A", type := "T",
             timestamp := 0 },
           { id := "1", title := "u", source := "A", type := "T",
             timestamp := 0 }] = FetchOutcome.ok items := hf
      injection hf' with he
      subst he
      rcases List.mem_cons.mp hn with h1 | h2
      · rw [h1]
      · rcases List.mem_singleton.mp h2 with rfl
        rfl)
